import Mathlib

/-!
Verification of the dhumal terminal database browser: the table renderer,
the horizontal viewport clipper, and the interaction state machine
(bubbletea model Update / key handlers), shallowly embedded from the Go
source.
-/

namespace Dhumal

/-! ### Renderer (ui/table renderTable) -/

/-- Cell access as the Go code performs it: index `i` of the row when in
range, the empty string otherwise (rows shorter than the header read as
empty cells, cells beyond the header are ignored by never being read). -/
def cellAt (row : List String) (i : Nat) : String :=
  row.getD i ""

/-- Width of column `i`: the running maximum the Go loop computes, seeded
with the header label length (in code points) and folded over every row's
cell `i` length. -/
def colWidth (columns : List String) (rows : List (List String)) (i : Nat) : Nat :=
  rows.foldl (fun w row => max w (cellAt row i).length) (columns.getD i "").length

/-- The list of all column widths. -/
def colWidths (columns : List String) (rows : List (List String)) : List Nat :=
  (List.range columns.length).map (colWidth columns rows)

/-- Left-justified space padding to width `w` (the %-*s format verb). -/
def padRight (s : String) (w : Nat) : String :=
  s ++ String.mk (List.replicate (w - s.length) ' ')

/-- One border line: a plus sign, then per column `w + 2` dashes and a
plus sign. -/
def borderLine (ws : List Nat) : String :=
  ws.foldl (fun acc w => acc ++ String.mk (List.replicate (w + 2) '-') ++ "+") "+"

/-- One content line: a pipe, then per column index a space, the padded
cell, and a closing space-pipe.  The header line is this applied to the
header labels themselves. -/
def contentLine (ws : List Nat) (cells : List String) : String :=
  (List.range ws.length).foldl
    (fun acc i => acc ++ " " ++ padRight (cellAt cells i) (ws.getD i 0) ++ " |") "|"

/-- The lines the renderer emits, in order: top border, header, separator
border, one line per data row, bottom border. -/
def tableLines (columns : List String) (rows : List (List String)) : List String :=
  let ws := colWidths columns rows
  [borderLine ws, contentLine ws columns, borderLine ws]
    ++ rows.map (contentLine ws) ++ [borderLine ws]

/-- renderTable from the Go source: the fixed placeholder for an empty
header set, otherwise each emitted line followed by a newline. -/
def renderTable (columns : List String) (rows : List (List String)) : String :=
  if columns.isEmpty then "(No columns)\n"
  else String.join ((tableLines columns rows).map (fun l => l ++ "\n"))

/-! ### Viewport clipper (applyHorizontalScroll) -/

/-- Split a character sequence at newline characters, as strings.Split on
a newline separator does: one more line than there are separators. -/
def splitLines : List Char → List (List Char)
  | [] => [[]]
  | c :: rest =>
    if c = '\n' then [] :: splitLines rest
    else
      match splitLines rest with
      | [] => [[c]]
      | l :: ls => (c :: l) :: ls

/-- Join lines with newline separators, as strings.Join does. -/
def joinLines : List (List Char) → List Char
  | [] => []
  | [l] => l
  | l :: l2 :: ls => l ++ '\n' :: joinLines (l2 :: ls)

/-- Clip one line: empty when the offset is at or past the end, otherwise
the rune slice from the offset of at most `width` characters. -/
def clipLine (offset width : Nat) (line : List Char) : List Char :=
  if line.length ≤ offset then []
  else (line.drop offset).take width

/-- applyHorizontalScroll from the Go source: unchanged when width is not
positive; otherwise the offset is clamped to be nonnegative and every
line is clipped to the window. -/
def applyHorizontalScroll (s : String) (offset width : Int) : String :=
  if width ≤ 0 then s
  else
    let off : Nat := (if offset < 0 then 0 else offset).toNat
    String.mk (joinLines ((splitLines s.data).map (clipLine off width.toNat)))

/-! ### Interaction state machine (internal/app Model) -/

/-- The three top-level UI modes. -/
inductive Mode where
  | form
  | tables
  | rows
deriving DecidableEq, Repr

/-- Connection parameters, as in db.ConnConfig. -/
structure ConnConfig where
  host : String
  port : String
  user : String
  password : String
  database : String
deriving DecidableEq, Repr

/-- Fetch options, as in db.QueryOptions. -/
structure QueryOptions where
  limit : Int
  offset : Int
  filter : String
deriving DecidableEq, Repr

/-- One fetched page, as in db.RowPage. -/
structure RowPage where
  columns : List String
  rows : List (List String)
  totalRows : Int
  offset : Int
deriving DecidableEq, Repr

/-- The command a transition may schedule (the tea.Cmd closures, made
explicit as data: which DataClient call with which arguments, or quit). -/
inductive Cmd where
  | quit
  | connect (cfg : ConnConfig)
  | listTables
  | fetchRows (table : String) (opts : QueryOptions)
  | deleteRows (table : String) (pred : String)
deriving DecidableEq, Repr

/-- The Model struct.  Text inputs are represented by their string value;
the widget chrome (prompt, placeholder, focus) is presentation only. -/
structure Model where
  hostInput : String
  portInput : String
  userInput : String
  passInput : String
  dbInput : String
  focusIndex : Int
  mode : Mode
  status : String
  loading : Bool
  tableNames : List String
  tableCursor : Int
  selectedTable : String
  columns : List String
  rows : List (List String)
  pageSize : Int
  offset : Int
  totalRows : Int
  filter : String
  filterInput : String
  editingFilter : Bool
  editingDelete : Bool
  width : Int
  horizOffset : Int
deriving DecidableEq, Repr

/-- Events consumed by Update: the four async result messages, window
resize, and key presses (a key is its msg.String() form). -/
inductive Msg where
  | dbResult (err : Option String)
  | deleteResult (affected : Int) (err : Option String)
  | tablesResult (tables : List String) (err : Option String)
  | rowsResult (page : RowPage) (err : Option String)
  | windowSize (w : Int)
  | key (k : String)
deriving DecidableEq, Repr

/-- The update function of the external textinput widget, abstracted: it
maps a key and the current value to the new value.  The state machine
only forwards keys to it and reads the value back. -/
def TIUpdate : Type := String → String → String

/-- initialModel from the Go source (Go zero values for the fields the
literal omits). -/
def initialModel : Model where
  hostInput := ""
  portInput := ""
  userInput := ""
  passInput := ""
  dbInput := ""
  focusIndex := 0
  mode := .form
  status := "Fill details and press Enter to connect."
  loading := false
  tableNames := []
  tableCursor := 0
  selectedTable := ""
  columns := []
  rows := []
  pageSize := 10
  offset := 0
  totalRows := 0
  filter := ""
  filterInput := ""
  editingFilter := false
  editingDelete := false
  width := 0
  horizOffset := 0

/-- strings.TrimSpace: remove leading and trailing whitespace. -/
def trimSpace (s : String) : String :=
  String.mk (((s.data.dropWhile Char.isWhitespace).reverse.dropWhile Char.isWhitespace).reverse)

/-- After the form-mode switch, the key message is forwarded to whichever
input currently holds focus. -/
def forwardFormInput (ti : TIUpdate) (m : Model) (k : String) : Model :=
  if m.focusIndex = 0 then { m with hostInput := ti k m.hostInput }
  else if m.focusIndex = 1 then { m with portInput := ti k m.portInput }
  else if m.focusIndex = 2 then { m with userInput := ti k m.userInput }
  else if m.focusIndex = 3 then { m with passInput := ti k m.passInput }
  else if m.focusIndex = 4 then { m with dbInput := ti k m.dbInput }
  else m

/-- updateFormKey from the Go source. -/
def updateFormKey (ti : TIUpdate) (m : Model) (k : String) : Model × Option Cmd :=
  if k = "ctrl+c" ∨ k = "esc" then (m, some .quit)
  else if k = "tab" ∨ k = "down" then
    let m := { m with focusIndex := if m.focusIndex + 1 > 4 then 4 else m.focusIndex + 1 }
    (forwardFormInput ti m k, none)
  else if k = "shift+tab" ∨ k = "up" then
    let m := { m with focusIndex := if m.focusIndex - 1 < 0 then 0 else m.focusIndex - 1 }
    (forwardFormInput ti m k, none)
  else if k = "enter" then
    if m.focusIndex = 4 then
      ({ m with loading := true, status := "Connecting to DB..." },
       some (.connect ⟨m.hostInput, m.portInput, m.userInput, m.passInput, m.dbInput⟩))
    else
      let m := { m with focusIndex := if m.focusIndex + 1 > 4 then 4 else m.focusIndex + 1 }
      (forwardFormInput ti m k, none)
  else (forwardFormInput ti m k, none)

/-- updateTablesKey from the Go source. -/
def updateTablesKey (m : Model) (k : String) : Model × Option Cmd :=
  if k = "ctrl+c" ∨ k = "esc" ∨ k = "q" then (m, some .quit)
  else if k = "up" then
    (if m.tableCursor > 0 then { m with tableCursor := m.tableCursor - 1 } else m, none)
  else if k = "down" then
    (if m.tableCursor < (m.tableNames.length : Int) - 1 then
      { m with tableCursor := m.tableCursor + 1 } else m, none)
  else if k = "enter" then
    if m.tableNames.length = 0 then (m, none)
    else
      let sel := m.tableNames.getD m.tableCursor.toNat ""
      let m := { m with selectedTable := sel, loading := true, offset := 0,
                        horizOffset := 0, filter := "",
                        status := "Fetching rows from " ++ sel ++ "..." }
      (m, some (.fetchRows m.selectedTable ⟨m.pageSize, m.offset, m.filter⟩))
  else (m, none)

/-- updateRowsKey from the Go source: delete editing first, then filter
editing, then the browsing controls. -/
def updateRowsKey (ti : TIUpdate) (m : Model) (k : String) : Model × Option Cmd :=
  if m.editingDelete then
    if k = "esc" ∨ k = "ctrl+c" then
      ({ m with editingDelete := false,
                status := "Delete cancelled. Press \x27d\x27 to delete again." }, none)
    else if k = "enter" then
      let wh := trimSpace m.filterInput
      if wh = "" then
        ({ m with status := "WHERE clause cannot be empty for DELETE." }, none)
      else
        ({ m with editingDelete := false, loading := true, status := "Deleting rows..." },
         some (.deleteRows m.selectedTable wh))
    else ({ m with filterInput := ti k m.filterInput }, none)
  else if m.editingFilter then
    if k = "esc" ∨ k = "ctrl+c" then
      let m := { m with editingFilter := false, filter := "", offset := 0, loading := true,
                        status := "Filter cancelled. Press \x27/\x27 to filter again." }
      (m, some (.fetchRows m.selectedTable ⟨m.pageSize, m.offset, m.filter⟩))
    else if k = "enter" then
      let m := { m with filter := m.filterInput, editingFilter := false, offset := 0,
                        loading := true, status := "Applying filter..." }
      (m, some (.fetchRows m.selectedTable ⟨m.pageSize, m.offset, m.filter⟩))
    else ({ m with filterInput := ti k m.filterInput }, none)
  else
    if k = "ctrl+c" ∨ k = "q" then (m, some .quit)
    else if k = "r" then
      let m := { m with filter := "", offset := 0, loading := true,
                        status := "Fetching rows from " ++ m.selectedTable ++ "..." }
      (m, some (.fetchRows m.selectedTable ⟨m.pageSize, m.offset, m.filter⟩))
    else if k = "d" then
      ({ m with editingDelete := true, editingFilter := false, filterInput := "",
                status := "Enter SQL WHERE clause for DELETE (without \x27WHERE\x27). Enter to delete, Esc to cancel." },
       none)
    else if k = "b" then
      ({ m with mode := .tables, status := "Use ↑/↓ and Enter to select another table." }, none)
    else if k = "/" then
      ({ m with editingFilter := true, editingDelete := false, filterInput := m.filter,
                status := "Enter SQL WHERE clause (without \x27WHERE\x27). Enter to apply, Esc to cancel." },
       none)
    else if k = "n" then
      if m.totalRows = 0 then (m, none)
      else
        let nextOffset := m.offset + m.pageSize
        if nextOffset ≥ m.totalRows then
          ({ m with status := "Already at last page." }, none)
        else
          ({ m with loading := true, status := "Loading next page..." },
           some (.fetchRows m.selectedTable ⟨m.pageSize, nextOffset, m.filter⟩))
    else if k = "p" then
      if m.totalRows = 0 then (m, none)
      else
        let prevOffset := if m.offset - m.pageSize < 0 then 0 else m.offset - m.pageSize
        if prevOffset = m.offset then
          ({ m with status := "Already at first page." }, none)
        else
          ({ m with loading := true, status := "Loading previous page..." },
           some (.fetchRows m.selectedTable ⟨m.pageSize, prevOffset, m.filter⟩))
    else if k = "left" ∨ k = "h" then
      ({ m with horizOffset := if m.horizOffset - 4 < 0 then 0 else m.horizOffset - 4 }, none)
    else if k = "right" ∨ k = "l" then
      ({ m with horizOffset := m.horizOffset + 4 }, none)
    else if k = "shift+left" then
      ({ m with horizOffset := if m.horizOffset - 16 < 0 then 0 else m.horizOffset - 16 }, none)
    else if k = "shift+right" then
      ({ m with horizOffset := m.horizOffset + 16 }, none)
    else (m, none)

/-- handleKey: dispatch on the current mode. -/
def handleKey (ti : TIUpdate) (m : Model) (k : String) : Model × Option Cmd :=
  match m.mode with
  | .form => updateFormKey ti m k
  | .tables => updateTablesKey m k
  | .rows => updateRowsKey ti m k

/-- Update from the Go source: result messages, window size, keys. -/
def update (ti : TIUpdate) (m : Model) (msg : Msg) : Model × Option Cmd :=
  match msg with
  | .dbResult err =>
    let m := { m with loading := false }
    match err with
    | some e => ({ m with status := "Connection failed: " ++ e, mode := .form }, none)
    | none =>
      ({ m with status := "Connected! Fetching tables...", mode := .tables, loading := true },
       some .listTables)
  | .tablesResult tables err =>
    let m := { m with loading := false }
    match err with
    | some e => ({ m with status := "Failed to fetch tables: " ++ e, mode := .form }, none)
    | none =>
      let m := { m with tableNames := tables, tableCursor := 0 }
      (if tables.length = 0 then
        { m with status := "Connected but no tables found in public schema." }
       else m, none)
  | .deleteResult affected err =>
    let m := { m with loading := false }
    match err with
    | some e => ({ m with status := "Delete failed: " ++ e, mode := .rows }, none)
    | none =>
      let m := { m with status := "Deleted " ++ toString affected ++ " row(s). Reloading page...",
                        loading := true }
      (m, some (.fetchRows m.selectedTable ⟨m.pageSize, m.offset, m.filter⟩))
  | .rowsResult page err =>
    let m := { m with loading := false }
    match err with
    | some e => ({ m with status := "Failed to fetch rows: " ++ e, mode := .tables }, none)
    | none =>
      ({ m with columns := page.columns, rows := page.rows, totalRows := page.totalRows,
                offset := page.offset,
                status := "Showing rows (page size " ++ toString m.pageSize ++
                  "). Press \x27b\x27 to go back, \x27n\x27/\x27p\x27 for next/prev page, \x27/\x27 to filter.",
                mode := .rows }, none)
  | .windowSize w => ({ m with width := w }, none)
  | .key k => handleKey ti m k

/-- States reachable from the initial model under any event sequence. -/
inductive Reachable (ti : TIUpdate) : Model → Prop where
  | init : Reachable ti initialModel
  | step (m : Model) (msg : Msg) : Reachable ti m → Reachable ti (update ti m msg).1

/-- A concrete textinput update used to instantiate witnesses: append the
key to the buffer. -/
def tiAppend : TIUpdate := fun k v => v ++ k

/-! ### Pagination (claim C1) -/

/-- Characterization of the key n branch of updateRowsKey in browsing
sub-mode. -/
theorem updateRowsKey_n (ti : TIUpdate) (m : Model)
    (hd : m.editingDelete = false) (hf : m.editingFilter = false) :
    updateRowsKey ti m "n" =
      if m.totalRows = 0 then (m, none)
      else if m.offset + m.pageSize ≥ m.totalRows then
        ({ m with status := "Already at last page." }, none)
      else
        ({ m with loading := true, status := "Loading next page..." },
         some (.fetchRows m.selectedTable ⟨m.pageSize, m.offset + m.pageSize, m.filter⟩)) := by
  simp [updateRowsKey, hd, hf]

/-- Characterization of the key p branch of updateRowsKey in browsing
sub-mode. -/
theorem updateRowsKey_p (ti : TIUpdate) (m : Model)
    (hd : m.editingDelete = false) (hf : m.editingFilter = false) :
    updateRowsKey ti m "p" =
      if m.totalRows = 0 then (m, none)
      else if max (m.offset - m.pageSize) 0 = m.offset then
        ({ m with status := "Already at first page." }, none)
      else
        ({ m with loading := true, status := "Loading previous page..." },
         some (.fetchRows m.selectedTable ⟨m.pageSize, max (m.offset - m.pageSize) 0, m.filter⟩)) := by
  have hmax : (if m.offset < m.pageSize then 0 else m.offset - m.pageSize)
      = max (m.offset - m.pageSize) 0 := by omega
  simp [updateRowsKey, hd, hf, hmax]

/-- A browsing-mode state with totalRows 0 but a nonzero offset
(reachable in the program after a delete that empties the filtered set,
since the refetch keeps the old offset and echoes it back). -/
def c1CexModel : Model :=
  { initialModel with mode := .rows, totalRows := 0, offset := 20, pageSize := 10 }

/-- C1 counterexample: in this state the claimed prev candidate
max(0, offset - pageSize) = 10 differs from offset = 20, so the claim
requires key p to dispatch a fetch at 10 (or, were candidate = offset,
to set the first-page status); the code instead returns with no command
and an unchanged status, because of a totalRows = 0 guard on key p that
the claim omits. -/
theorem c1_counterexample :
    max (c1CexModel.offset - c1CexModel.pageSize) 0 ≠ c1CexModel.offset
    ∧ (handleKey tiAppend c1CexModel "p").2 = none
    ∧ (handleKey tiAppend c1CexModel "p").1 = c1CexModel := by
  decide

/-- C1 (amended): in RowView/Browsing, key n: no-op when totalRows = 0;
otherwise with candidate = offset + pageSize, a no-op setting the
last-page status when candidate ≥ totalRows, else a fetch at candidate.
Key p: no-op when totalRows = 0 (the guard the original claim omitted);
otherwise with candidate = max(0, offset - pageSize), a no-op setting
the first-page status when candidate = offset, else a fetch at
candidate.  Consequently next never requests an offset ≥ totalRows and
prev never requests a negative offset. -/
theorem c1_pagination (ti : TIUpdate) (m : Model)
    (hmode : m.mode = .rows) (hf : m.editingFilter = false) (hd : m.editingDelete = false) :
    (m.totalRows = 0 → handleKey ti m "n" = (m, none))
    ∧ (m.totalRows ≠ 0 → m.totalRows ≤ m.offset + m.pageSize →
        handleKey ti m "n" = ({ m with status := "Already at last page." }, none))
    ∧ (m.totalRows ≠ 0 → m.offset + m.pageSize < m.totalRows →
        handleKey ti m "n"
          = ({ m with loading := true, status := "Loading next page..." },
             some (.fetchRows m.selectedTable ⟨m.pageSize, m.offset + m.pageSize, m.filter⟩)))
    ∧ (m.totalRows = 0 → handleKey ti m "p" = (m, none))
    ∧ (m.totalRows ≠ 0 → max (m.offset - m.pageSize) 0 = m.offset →
        handleKey ti m "p" = ({ m with status := "Already at first page." }, none))
    ∧ (m.totalRows ≠ 0 → max (m.offset - m.pageSize) 0 ≠ m.offset →
        handleKey ti m "p"
          = ({ m with loading := true, status := "Loading previous page..." },
             some (.fetchRows m.selectedTable ⟨m.pageSize, max (m.offset - m.pageSize) 0, m.filter⟩)))
    ∧ (∀ t opts, (handleKey ti m "n").2 = some (.fetchRows t opts) → opts.offset < m.totalRows)
    ∧ (∀ t opts, (handleKey ti m "p").2 = some (.fetchRows t opts) → 0 ≤ opts.offset) := by
  have hkn : handleKey ti m "n" = updateRowsKey ti m "n" := by
    simp [handleKey, hmode]
  have hkp : handleKey ti m "p" = updateRowsKey ti m "p" := by
    simp [handleKey, hmode]
  rw [hkn, hkp, updateRowsKey_n ti m hd hf, updateRowsKey_p ti m hd hf]
  refine ⟨?_, ?_, ?_, ?_, ?_, ?_, ?_, ?_⟩
  · intro h0
    simp [h0]
  · intro h0 hge
    rw [if_neg h0, if_pos (by omega)]
  · intro h0 hlt
    rw [if_neg h0, if_neg (by omega)]
  · intro h0
    simp [h0]
  · intro h0 heq
    rw [if_neg h0, if_pos heq]
  · intro h0 hne
    rw [if_neg h0, if_neg hne]
  · intro t opts h
    split at h
    · simp at h
    · split at h
      · simp at h
      · simp only [Prod.snd] at h
        injection h with h
        injection h with h1 h2
        subst h2
        simp only []
        omega
  · intro t opts h
    split at h
    · simp at h
    · split at h
      · simp at h
      · simp only [Prod.snd] at h
        injection h with h
        injection h with h1 h2
        subst h2
        simp only []
        omega

/-- The claim C1 scenario state: totalRows 25, pageSize 10, offset 20. -/
def c1ScenModel : Model :=
  { initialModel with mode := .rows, totalRows := 25, offset := 20, pageSize := 10 }

/-- Witness for c1_pagination at the scenario state: key n is a no-op
with the last-page status and key p fetches at offset 10. -/
theorem c1_pagination_witness :
    handleKey tiAppend c1ScenModel "n"
      = ({ c1ScenModel with status := "Already at last page." }, none)
    ∧ handleKey tiAppend c1ScenModel "p"
      = ({ c1ScenModel with loading := true, status := "Loading previous page..." },
         some (.fetchRows "" ⟨10, 10, ""⟩)) := by
  have h := c1_pagination tiAppend c1ScenModel rfl rfl rfl
  constructor
  · exact h.2.1 (by decide) (by decide)
  · have hp := h.2.2.2.2.2.1 (by decide) (by decide)
    rw [hp]
    decide

/-! ### Delete with an empty predicate (claim C4) -/

/-- C4: in RowView/EditingDelete with an empty or whitespace-only input
buffer, Enter dispatches no command (hence no DeleteResult event can be
produced), sets the status text, leaves the page fields and the filter
unchanged, and the state stays in the EditingDelete sub-mode. -/
theorem c4_empty_delete_enter (ti : TIUpdate) (m : Model)
    (hmode : m.mode = .rows) (hd : m.editingDelete = true)
    (hbuf : trimSpace m.filterInput = "") :
    handleKey ti m "enter"
      = ({ m with status := "WHERE clause cannot be empty for DELETE." }, none)
    ∧ (handleKey ti m "enter").2 = none
    ∧ (handleKey ti m "enter").1.editingDelete = true
    ∧ (handleKey ti m "enter").1.columns = m.columns
    ∧ (handleKey ti m "enter").1.rows = m.rows
    ∧ (handleKey ti m "enter").1.totalRows = m.totalRows
    ∧ (handleKey ti m "enter").1.offset = m.offset
    ∧ (handleKey ti m "enter").1.filter = m.filter := by
  have h : handleKey ti m "enter"
      = ({ m with status := "WHERE clause cannot be empty for DELETE." }, none) := by
    simp [handleKey, hmode, updateRowsKey, hd, hbuf]
  refine ⟨h, ?_, ?_, ?_, ?_, ?_, ?_, ?_⟩ <;> rw [h] <;> simp [hd]

/-- A RowView state in the delete editor whose buffer holds only
whitespace. -/
def c4Model : Model :=
  { initialModel with mode := .rows, editingDelete := true, filterInput := "   ",
                      columns := ["id"], rows := [["1"]], totalRows := 1, offset := 0 }

/-- Witness for c4_empty_delete_enter at a concrete whitespace-only
buffer. -/
theorem c4_empty_delete_enter_witness :
    trimSpace c4Model.filterInput = ""
    ∧ handleKey tiAppend c4Model "enter"
        = ({ c4Model with status := "WHERE clause cannot be empty for DELETE." }, none) :=
  ⟨by decide, (c4_empty_delete_enter tiAppend c4Model rfl rfl (by decide)).1⟩

/-! ### Delete results (claim C5) -/

/-- C5: on DeleteResult success the status reports the affected count and
the selected table is refetched at the same offset with the same filter;
on failure the state stays in RowView/Browsing with the status set to the
failure detail and the page fields unchanged. -/
theorem c5_delete_result (ti : TIUpdate) (m : Model) (affected : Int)
    (hmode : m.mode = .rows) (hf : m.editingFilter = false) (hd : m.editingDelete = false) :
    (update ti m (.deleteResult affected none)
      = ({ m with loading := true,
                  status := "Deleted " ++ toString affected ++ " row(s). Reloading page..." },
         some (.fetchRows m.selectedTable ⟨m.pageSize, m.offset, m.filter⟩)))
    ∧ (∀ e, update ti m (.deleteResult affected (some e))
        = ({ m with loading := false, status := "Delete failed: " ++ e, mode := .rows }, none))
    ∧ (∀ e, (update ti m (.deleteResult affected (some e))).1.mode = .rows
        ∧ (update ti m (.deleteResult affected (some e))).1.editingFilter = false
        ∧ (update ti m (.deleteResult affected (some e))).1.editingDelete = false
        ∧ (update ti m (.deleteResult affected (some e))).1.columns = m.columns
        ∧ (update ti m (.deleteResult affected (some e))).1.rows = m.rows
        ∧ (update ti m (.deleteResult affected (some e))).1.totalRows = m.totalRows
        ∧ (update ti m (.deleteResult affected (some e))).1.offset = m.offset) := by
  refine ⟨by simp [update], fun e => by simp [update], fun e => ?_⟩
  refine ⟨?_, ?_, ?_, ?_, ?_, ?_, ?_⟩ <;> simp [update, hf, hd]

/-- The claim C5 scenario state: offset 10 with an active filter. -/
def c5Model : Model :=
  { initialModel with mode := .rows, selectedTable := "users", offset := 10,
                      filter := "status=\x27x\x27", totalRows := 25 }

/-- Witness for c5_delete_result: a successful delete of 3 rows at
offset 10 with an active filter refetches at offset 10 with the same
filter, not reset to 0. -/
theorem c5_delete_result_witness :
    update tiAppend c5Model (.deleteResult 3 none)
      = ({ c5Model with loading := true, status := "Deleted 3 row(s). Reloading page..." },
         some (.fetchRows "users" ⟨10, 10, "status=\x27x\x27"⟩)) := by
  have h := (c5_delete_result tiAppend c5Model 3 rfl rfl rfl).1
  rw [h]
  decide

/-! ### Rows results (claim C6) -/

/-- A state receiving a rows result while the filter editor is open
(possible because in-flight fetches are not blocked while editing
starts). -/
def c6CexModel : Model :=
  { initialModel with mode := .rows, editingFilter := true }

/-- The page payload for the C6 counterexample. -/
def c6CexPage : RowPage :=
  { columns := ["id"], rows := [["1"]], totalRows := 1, offset := 0 }

/-- C6 counterexample: a success RowsResult applied to a state whose
filter editor is open leaves editingFilter true - the row sub-mode does
not become Browsing as the claim states, because the handler never
clears the editing flags. -/
theorem c6_counterexample :
    (update tiAppend c6CexModel (.rowsResult c6CexPage none)).1.editingFilter = true
    ∧ (update tiAppend c6CexModel (.rowsResult c6CexPage none)).1.mode = .rows := by
  decide

/-- C6 (amended): on RowsResult success the page fields are populated
from the payload, the mode becomes RowView and loading clears, but the
editing flags are left unchanged (so the sub-mode is Browsing exactly
when no editing sub-mode was already active); on failure the mode
reverts to TableList with the status set, even when the request was
issued from within RowView. -/
theorem c6_rows_result (ti : TIUpdate) (m : Model) (page : RowPage) :
    update ti m (.rowsResult page none)
      = ({ m with loading := false, columns := page.columns, rows := page.rows,
                  totalRows := page.totalRows, offset := page.offset,
                  status := "Showing rows (page size " ++ toString m.pageSize ++
                    "). Press \x27b\x27 to go back, \x27n\x27/\x27p\x27 for next/prev page, \x27/\x27 to filter.",
                  mode := .rows }, none)
    ∧ (update ti m (.rowsResult page none)).1.editingFilter = m.editingFilter
    ∧ (update ti m (.rowsResult page none)).1.editingDelete = m.editingDelete
    ∧ ∀ e, update ti m (.rowsResult page (some e))
        = ({ m with loading := false, status := "Failed to fetch rows: " ++ e,
                    mode := .tables }, none) := by
  refine ⟨by simp [update], by simp [update], by simp [update], fun e => by simp [update]⟩

/-! ### Filter commit and cancel (claim C7) -/

/-- C7: in RowView/EditingFilter, Enter commits the buffer to the
filter, leaves editing, resets offset to 0 and fetches with the
committed filter at offset 0; Esc clears the filter, leaves editing,
resets offset to 0 and fetches with the empty filter at offset 0. -/
theorem c7_filter_commit_cancel (ti : TIUpdate) (m : Model)
    (hmode : m.mode = .rows) (hf : m.editingFilter = true) (hd : m.editingDelete = false) :
    handleKey ti m "enter"
      = ({ m with filter := m.filterInput, editingFilter := false, offset := 0,
                  loading := true, status := "Applying filter..." },
         some (.fetchRows m.selectedTable ⟨m.pageSize, 0, m.filterInput⟩))
    ∧ handleKey ti m "esc"
      = ({ m with editingFilter := false, filter := "", offset := 0, loading := true,
                  status := "Filter cancelled. Press \x27/\x27 to filter again." },
         some (.fetchRows m.selectedTable ⟨m.pageSize, 0, ""⟩)) := by
  constructor <;> simp [handleKey, hmode, updateRowsKey, hd, hf]

/-- A RowView state editing the filter with a committed-to-be buffer, a
previously active filter and a nonzero offset. -/
def c7Model : Model :=
  { initialModel with mode := .rows, editingFilter := true, filterInput := "id > 3",
                      filter := "old", offset := 30, totalRows := 50 }

/-- Witness for c7_filter_commit_cancel at a concrete editing state. -/
theorem c7_filter_commit_cancel_witness :
    (handleKey tiAppend c7Model "enter").2 = some (.fetchRows "" ⟨10, 0, "id > 3"⟩)
    ∧ (handleKey tiAppend c7Model "enter").1.offset = 0
    ∧ (handleKey tiAppend c7Model "enter").1.filter = "id > 3"
    ∧ (handleKey tiAppend c7Model "enter").1.editingFilter = false
    ∧ (handleKey tiAppend c7Model "esc").2 = some (.fetchRows "" ⟨10, 0, ""⟩)
    ∧ (handleKey tiAppend c7Model "esc").1.filter = ""
    ∧ (handleKey tiAppend c7Model "esc").1.offset = 0 := by
  have h := c7_filter_commit_cancel tiAppend c7Model rfl rfl rfl
  rw [h.1, h.2]
  decide

/-! ### Loading flag is never consulted in RowView (claim C9) -/

/-- Forget the loading flag of a state. -/
def eraseLoading (m : Model) : Model :=
  { m with loading := false }

set_option maxHeartbeats 2000000 in
/-- C9: updateRowsKey never consults the loading flag: states identical
except for loading produce the same command and the same resulting state
up to loading, so new fetch or delete commands are dispatched even while
loading is true. -/
theorem c9_loading_not_consulted (ti : TIUpdate) (m : Model) (k : String) (b1 b2 : Bool) :
    (updateRowsKey ti { m with loading := b1 } k).2
      = (updateRowsKey ti { m with loading := b2 } k).2
    ∧ eraseLoading (updateRowsKey ti { m with loading := b1 } k).1
      = eraseLoading (updateRowsKey ti { m with loading := b2 } k).1 := by
  refine ⟨?_, ?_⟩ <;>
  · by_cases h1 : k = "esc"
    · subst h1
      dsimp only [updateRowsKey]
      simp only [String.reduceEq, false_or, or_false, or_true, true_or, reduceIte]
      split_ifs <;> rfl
    by_cases h2 : k = "ctrl+c"
    · subst h2
      dsimp only [updateRowsKey]
      simp only [String.reduceEq, false_or, or_false, or_true, true_or, reduceIte]
      split_ifs <;> rfl
    by_cases h3 : k = "enter"
    · subst h3
      dsimp only [updateRowsKey]
      simp only [String.reduceEq, false_or, or_false, or_true, true_or, reduceIte]
      split_ifs <;> rfl
    by_cases h4 : k = "q"
    · subst h4
      dsimp only [updateRowsKey]
      simp only [String.reduceEq, false_or, or_false, or_true, true_or, reduceIte]
      split_ifs <;> rfl
    by_cases h5 : k = "r"
    · subst h5
      dsimp only [updateRowsKey]
      simp only [String.reduceEq, false_or, or_false, or_true, true_or, reduceIte]
      split_ifs <;> rfl
    by_cases h6 : k = "d"
    · subst h6
      dsimp only [updateRowsKey]
      simp only [String.reduceEq, false_or, or_false, or_true, true_or, reduceIte]
      split_ifs <;> rfl
    by_cases h7 : k = "b"
    · subst h7
      dsimp only [updateRowsKey]
      simp only [String.reduceEq, false_or, or_false, or_true, true_or, reduceIte]
      split_ifs <;> rfl
    by_cases h8 : k = "/"
    · subst h8
      dsimp only [updateRowsKey]
      simp only [String.reduceEq, false_or, or_false, or_true, true_or, reduceIte]
      split_ifs <;> rfl
    by_cases h9 : k = "n"
    · subst h9
      dsimp only [updateRowsKey]
      simp only [String.reduceEq, false_or, or_false, or_true, true_or, reduceIte]
      split_ifs <;> rfl
    by_cases h10 : k = "p"
    · subst h10
      dsimp only [updateRowsKey]
      simp only [String.reduceEq, false_or, or_false, or_true, true_or, reduceIte]
      split_ifs <;> rfl
    by_cases h11 : k = "left"
    · subst h11
      dsimp only [updateRowsKey]
      simp only [String.reduceEq, false_or, or_false, or_true, true_or, reduceIte]
      split_ifs <;> rfl
    by_cases h12 : k = "h"
    · subst h12
      dsimp only [updateRowsKey]
      simp only [String.reduceEq, false_or, or_false, or_true, true_or, reduceIte]
      split_ifs <;> rfl
    by_cases h13 : k = "right"
    · subst h13
      dsimp only [updateRowsKey]
      simp only [String.reduceEq, false_or, or_false, or_true, true_or, reduceIte]
      split_ifs <;> rfl
    by_cases h14 : k = "l"
    · subst h14
      dsimp only [updateRowsKey]
      simp only [String.reduceEq, false_or, or_false, or_true, true_or, reduceIte]
      split_ifs <;> rfl
    by_cases h15 : k = "shift+left"
    · subst h15
      dsimp only [updateRowsKey]
      simp only [String.reduceEq, false_or, or_false, or_true, true_or, reduceIte]
      split_ifs <;> rfl
    by_cases h16 : k = "shift+right"
    · subst h16
      dsimp only [updateRowsKey]
      simp only [String.reduceEq, false_or, or_false, or_true, true_or, reduceIte]
      split_ifs <;> rfl
    dsimp only [updateRowsKey]
    simp only [h1, h2, h3, h4, h5, h6, h7, h8, h9, h10, h11, h12, h13, h14, h15, h16, false_or, or_false, or_self, reduceIte, if_false, if_true]
    split_ifs <;> rfl

/-- Witness for c9_loading_not_consulted: while loading is true, key n in
the scenario state still dispatches the next-page fetch, identically to
the not-loading state. -/
theorem c9_loading_not_consulted_witness :
    ((updateRowsKey tiAppend { c1ScenModel with loading := true } "p").2
      = (updateRowsKey tiAppend { c1ScenModel with loading := false } "p").2)
    ∧ ({ c1ScenModel with loading := true }.loading = true
        ∧ (updateRowsKey tiAppend { c1ScenModel with loading := true } "p").2
            = some (.fetchRows "" ⟨10, 10, ""⟩)) := by
  refine ⟨(c9_loading_not_consulted tiAppend c1ScenModel "p" true false).1, by decide⟩

/-! ### Editing sub-modes are mutually exclusive (claim C8) -/

/-- forwardFormInput never touches the editing flags or the horizontal
offset. -/
theorem forwardFormInput_preserves (ti : TIUpdate) (m : Model) (k : String) :
    (forwardFormInput ti m k).editingFilter = m.editingFilter
    ∧ (forwardFormInput ti m k).editingDelete = m.editingDelete
    ∧ (forwardFormInput ti m k).horizOffset = m.horizOffset := by
  refine ⟨?_, ?_, ?_⟩ <;>
  · dsimp only [forwardFormInput]
    split_ifs <;> rfl

/-- updateFormKey never touches the editing flags or the horizontal
offset. -/
theorem updateFormKey_preserves (ti : TIUpdate) (m : Model) (k : String) :
    (updateFormKey ti m k).1.editingFilter = m.editingFilter
    ∧ (updateFormKey ti m k).1.editingDelete = m.editingDelete
    ∧ (updateFormKey ti m k).1.horizOffset = m.horizOffset := by
  refine ⟨?_, ?_, ?_⟩
  · dsimp only [updateFormKey]
    split_ifs <;> first | rfl | exact (forwardFormInput_preserves ti _ k).1
  · dsimp only [updateFormKey]
    split_ifs <;> first | rfl | exact (forwardFormInput_preserves ti _ k).2.1
  · dsimp only [updateFormKey]
    split_ifs <;> first | rfl | exact (forwardFormInput_preserves ti _ k).2.2

/-- Any single transition preserves the exclusion of the two editing
flags. -/
theorem editing_excl_step (ti : TIUpdate) (m : Model) (msg : Msg)
    (h : m.editingFilter = false ∨ m.editingDelete = false) :
    (update ti m msg).1.editingFilter = false ∨ (update ti m msg).1.editingDelete = false := by
  cases msg with
  | dbResult err => cases err <;> exact h
  | tablesResult tables err =>
    cases err with
    | none =>
      dsimp only [update]
      split_ifs <;> exact h
    | some e => exact h
  | deleteResult affected err => cases err <;> exact h
  | rowsResult page err => cases err <;> exact h
  | windowSize w => exact h
  | key k =>
    dsimp only [update, handleKey]
    cases hm : m.mode with
    | form =>
      rw [(updateFormKey_preserves ti m k).1, (updateFormKey_preserves ti m k).2.1]
      exact h
    | tables =>
      dsimp only [updateTablesKey]
      split_ifs <;> exact h
    | rows =>
      by_cases h1 : k = "esc"
      · subst h1
        dsimp only [updateRowsKey]
        simp only [String.reduceEq, false_or, or_false, or_true, true_or, reduceIte]
        split_ifs <;> first | exact h | exact Or.inl rfl | exact Or.inr rfl
      by_cases h2 : k = "ctrl+c"
      · subst h2
        dsimp only [updateRowsKey]
        simp only [String.reduceEq, false_or, or_false, or_true, true_or, reduceIte]
        split_ifs <;> first | exact h | exact Or.inl rfl | exact Or.inr rfl
      by_cases h3 : k = "enter"
      · subst h3
        dsimp only [updateRowsKey]
        simp only [String.reduceEq, false_or, or_false, or_true, true_or, reduceIte]
        split_ifs <;> first | exact h | exact Or.inl rfl | exact Or.inr rfl
      by_cases h4 : k = "q"
      · subst h4
        dsimp only [updateRowsKey]
        simp only [String.reduceEq, false_or, or_false, or_true, true_or, reduceIte]
        split_ifs <;> first | exact h | exact Or.inl rfl | exact Or.inr rfl
      by_cases h5 : k = "r"
      · subst h5
        dsimp only [updateRowsKey]
        simp only [String.reduceEq, false_or, or_false, or_true, true_or, reduceIte]
        split_ifs <;> first | exact h | exact Or.inl rfl | exact Or.inr rfl
      by_cases h6 : k = "d"
      · subst h6
        dsimp only [updateRowsKey]
        simp only [String.reduceEq, false_or, or_false, or_true, true_or, reduceIte]
        split_ifs <;> first | exact h | exact Or.inl rfl | exact Or.inr rfl
      by_cases h7 : k = "b"
      · subst h7
        dsimp only [updateRowsKey]
        simp only [String.reduceEq, false_or, or_false, or_true, true_or, reduceIte]
        split_ifs <;> first | exact h | exact Or.inl rfl | exact Or.inr rfl
      by_cases h8 : k = "/"
      · subst h8
        dsimp only [updateRowsKey]
        simp only [String.reduceEq, false_or, or_false, or_true, true_or, reduceIte]
        split_ifs <;> first | exact h | exact Or.inl rfl | exact Or.inr rfl
      by_cases h9 : k = "n"
      · subst h9
        dsimp only [updateRowsKey]
        simp only [String.reduceEq, false_or, or_false, or_true, true_or, reduceIte]
        split_ifs <;> first | exact h | exact Or.inl rfl | exact Or.inr rfl
      by_cases h10 : k = "p"
      · subst h10
        dsimp only [updateRowsKey]
        simp only [String.reduceEq, false_or, or_false, or_true, true_or, reduceIte]
        split_ifs <;> first | exact h | exact Or.inl rfl | exact Or.inr rfl
      by_cases h11 : k = "left"
      · subst h11
        dsimp only [updateRowsKey]
        simp only [String.reduceEq, false_or, or_false, or_true, true_or, reduceIte]
        split_ifs <;> first | exact h | exact Or.inl rfl | exact Or.inr rfl
      by_cases h12 : k = "h"
      · subst h12
        dsimp only [updateRowsKey]
        simp only [String.reduceEq, false_or, or_false, or_true, true_or, reduceIte]
        split_ifs <;> first | exact h | exact Or.inl rfl | exact Or.inr rfl
      by_cases h13 : k = "right"
      · subst h13
        dsimp only [updateRowsKey]
        simp only [String.reduceEq, false_or, or_false, or_true, true_or, reduceIte]
        split_ifs <;> first | exact h | exact Or.inl rfl | exact Or.inr rfl
      by_cases h14 : k = "l"
      · subst h14
        dsimp only [updateRowsKey]
        simp only [String.reduceEq, false_or, or_false, or_true, true_or, reduceIte]
        split_ifs <;> first | exact h | exact Or.inl rfl | exact Or.inr rfl
      by_cases h15 : k = "shift+left"
      · subst h15
        dsimp only [updateRowsKey]
        simp only [String.reduceEq, false_or, or_false, or_true, true_or, reduceIte]
        split_ifs <;> first | exact h | exact Or.inl rfl | exact Or.inr rfl
      by_cases h16 : k = "shift+right"
      · subst h16
        dsimp only [updateRowsKey]
        simp only [String.reduceEq, false_or, or_false, or_true, true_or, reduceIte]
        split_ifs <;> first | exact h | exact Or.inl rfl | exact Or.inr rfl
      dsimp only [updateRowsKey]
      simp only [h1, h2, h3, h4, h5, h6, h7, h8, h9, h10, h11, h12, h13, h14, h15, h16, false_or, or_false, or_self, reduceIte, if_false, if_true]
      split_ifs <;> first | exact h | exact Or.inl rfl | exact Or.inr rfl

/-- C8: in every state reachable from the initial state, the two editing
flags are never both true - at most one editing sub-mode is active. -/
theorem c8_editing_mutually_exclusive (ti : TIUpdate) (m : Model) (h : Reachable ti m) :
    ¬(m.editingFilter = true ∧ m.editingDelete = true) := by
  have key : m.editingFilter = false ∨ m.editingDelete = false := by
    induction h with
    | init => exact Or.inl rfl
    | step m' msg hr ih => exact editing_excl_step ti m' msg ih
  rcases key with h1 | h1 <;> simp [h1]

/-- Witness for c8_editing_mutually_exclusive: the initial state is
reachable and indeed has no editing sub-mode active. -/
theorem c8_editing_mutually_exclusive_witness :
    ¬(Dhumal.initialModel.editingFilter = true ∧ Dhumal.initialModel.editingDelete = true) :=
  c8_editing_mutually_exclusive tiAppend initialModel Reachable.init

/-! ### Viewport clipper lemmas (claim C3) -/

/-- splitLines always returns at least one line. -/
theorem splitLines_ne_nil (cs : List Char) : splitLines cs ≠ [] := by
  cases cs with
  | nil => simp [splitLines]
  | cons c rest =>
    dsimp only [splitLines]
    split_ifs
    · simp
    · cases h : splitLines rest <;> simp

/-- No line produced by splitLines contains a newline character. -/
theorem splitLines_no_newline (cs : List Char) : ∀ l ∈ splitLines cs, '\n' ∉ l := by
  induction cs with
  | nil =>
    intro l hl
    simp only [splitLines, List.mem_singleton] at hl
    subst hl
    simp
  | cons c rest ih =>
    intro l hl
    dsimp only [splitLines] at hl
    by_cases hc : c = '\n'
    · rw [if_pos hc] at hl
      rcases List.mem_cons.mp hl with rfl | hl
      · simp
      · exact ih l hl
    · rw [if_neg hc] at hl
      rcases hsp : splitLines rest with _ | ⟨l0, ls0⟩
      · exact absurd hsp (splitLines_ne_nil rest)
      · rw [hsp] at hl
        rcases List.mem_cons.mp hl with rfl | hl
        · intro hx
          rcases List.mem_cons.mp hx with rfl | hx
          · exact hc rfl
          · exact ih l0 (hsp ▸ List.mem_cons_self l0 ls0) hx
        · exact ih l (hsp ▸ List.mem_cons_of_mem l0 hl)

/-- Splitting a newline-free prefix followed by a newline peels exactly
that prefix off as the first line. -/
theorem splitLines_append_newline (l cs : List Char) (h : '\n' ∉ l) :
    splitLines (l ++ '\n' :: cs) = l :: splitLines cs := by
  induction l with
  | nil => simp [splitLines]
  | cons c l ih =>
    have hc : c ≠ '\n' := fun e => h (e ▸ List.mem_cons_self c l)
    have h' : '\n' ∉ l := fun hx => h (List.mem_cons_of_mem c hx)
    dsimp only [List.cons_append, splitLines]
    rw [if_neg hc, ih h']

/-- Splitting a newline-free character sequence yields that single line. -/
theorem splitLines_single (l : List Char) (h : '\n' ∉ l) : splitLines l = [l] := by
  induction l with
  | nil => rfl
  | cons c l ih =>
    have hc : c ≠ '\n' := fun e => h (e ▸ List.mem_cons_self c l)
    have h' : '\n' ∉ l := fun hx => h (List.mem_cons_of_mem c hx)
    dsimp only [splitLines]
    rw [if_neg hc, ih h']

/-- splitLines inverts joinLines on any nonempty list of newline-free
lines. -/
theorem splitLines_joinLines (ls : List (List Char)) (hne : ls ≠ [])
    (h : ∀ l ∈ ls, '\n' ∉ l) : splitLines (joinLines ls) = ls := by
  induction ls with
  | nil => exact absurd rfl hne
  | cons l ls ih =>
    cases ls with
    | nil => exact splitLines_single l (h l (List.mem_cons_self l []))
    | cons l2 ls2 =>
      dsimp only [joinLines]
      rw [splitLines_append_newline l _ (h l (List.mem_cons_self l (l2 :: ls2))),
        ih (by simp) (fun x hx => h x (List.mem_cons_of_mem l hx))]

/-- The length of a clipped line is the claimed min of width and the
remaining characters past the offset. -/
theorem clipLine_length (off w : Nat) (line : List Char) :
    (clipLine off w line).length = min w (line.length - off) := by
  unfold clipLine
  split_ifs with h
  · simp [Nat.sub_eq_zero_of_le h]
  · simp [List.length_take, List.length_drop]

/-- Clipping preserves the absence of newlines. -/
theorem clipLine_no_newline (off w : Nat) (line : List Char) (h : '\n' ∉ line) :
    '\n' ∉ clipLine off w line := by
  unfold clipLine
  split_ifs
  · simp
  · intro hx
    exact h (List.drop_subset off line (List.take_subset w _ hx))

/-- The lines of the clipped output are exactly the pointwise-clipped
lines of the input. -/
theorem applyHorizontalScroll_lines (s : String) (offset width : Int) (hw : 0 < width) :
    splitLines (applyHorizontalScroll s offset width).data
      = (splitLines s.data).map (clipLine (max offset 0).toNat width.toNat) := by
  have hnle : ¬(width ≤ 0) := not_le.mpr hw
  have hoff : (if offset < 0 then 0 else offset) = max offset 0 := by omega
  unfold applyHorizontalScroll
  rw [if_neg hnle]
  dsimp only
  rw [hoff]
  apply splitLines_joinLines
  · intro hmap
    exact splitLines_ne_nil s.data (List.map_eq_nil.mp hmap)
  · intro l hl
    rcases List.mem_map.mp hl with ⟨l0, hl0, rfl⟩
    exact clipLine_no_newline _ _ _ (splitLines_no_newline s.data l0 hl0)

/-- C3: for nonpositive width the clipper returns the input unchanged;
for positive width it returns the same number of lines, and each output
line's length in code points is min(width, max(0, lineLength - offset))
with the offset first clamped to be nonnegative - in particular a line
no longer than the offset becomes empty. -/
theorem c3_viewport_clipper (s : String) (offset width : Int) :
    (width ≤ 0 → applyHorizontalScroll s offset width = s)
    ∧ (0 < width →
        (splitLines (applyHorizontalScroll s offset width).data).length
          = (splitLines s.data).length
        ∧ ∀ i, i < (splitLines s.data).length →
            ((splitLines (applyHorizontalScroll s offset width).data).getD i []).length
              = min width.toNat
                  (((splitLines s.data).getD i []).length - (max offset 0).toNat)) := by
  constructor
  · intro h
    simp [applyHorizontalScroll, h]
  · intro hw
    rw [applyHorizontalScroll_lines s offset width hw]
    constructor
    · exact List.length_map _ _
    · intro i hi
      have hi2 : i < ((splitLines s.data).map
          (clipLine (max offset 0).toNat width.toNat)).length := by
        simpa using hi
      rw [List.getD_eq_getElem _ _ hi2, List.getElem_map, clipLine_length,
        List.getD_eq_getElem _ _ hi]

/-- Witness for c3_viewport_clipper on a concrete two-line text with
offset 2 and width 3. -/
theorem c3_viewport_clipper_witness :
    (0 : Int) < 3
    ∧ (splitLines (applyHorizontalScroll "abcdef\nxy" 2 3).data).length
        = (splitLines ("abcdef\nxy" : String).data).length
    ∧ ((splitLines (applyHorizontalScroll "abcdef\nxy" 2 3).data).getD 1 []).length
        = min (Int.toNat 3)
            ((((splitLines ("abcdef\nxy" : String).data).getD 1 []).length)
              - (max (2 : Int) 0).toNat) := by
  have h := (c3_viewport_clipper "abcdef\nxy" 2 3).2 (by decide)
  exact ⟨by decide, h.1, h.2 1 (by decide)⟩

/-! ### Horizontal offset bounds (claim C10) -/

/-- Any single transition keeps the horizontal offset nonnegative. -/
theorem horiz_nonneg_step (ti : TIUpdate) (m : Model) (msg : Msg)
    (h : 0 ≤ m.horizOffset) : 0 ≤ (update ti m msg).1.horizOffset := by
  cases msg with
  | dbResult err => cases err <;> exact h
  | tablesResult tables err =>
    cases err with
    | none =>
      dsimp only [update]
      split_ifs <;> exact h
    | some e => exact h
  | deleteResult affected err => cases err <;> exact h
  | rowsResult page err => cases err <;> exact h
  | windowSize w => exact h
  | key k =>
    dsimp only [update, handleKey]
    cases hm : m.mode with
    | form =>
      rw [(updateFormKey_preserves ti m k).2.2]
      exact h
    | tables =>
      dsimp only [updateTablesKey]
      split_ifs <;> first | exact h | exact le_refl 0
    | rows =>
      by_cases h1 : k = "esc"
      · subst h1
        dsimp only [updateRowsKey]
        simp only [String.reduceEq, false_or, or_false, or_true, true_or, reduceIte]
        split_ifs <;> exact h
      by_cases h2 : k = "ctrl+c"
      · subst h2
        dsimp only [updateRowsKey]
        simp only [String.reduceEq, false_or, or_false, or_true, true_or, reduceIte]
        split_ifs <;> exact h
      by_cases h3 : k = "enter"
      · subst h3
        dsimp only [updateRowsKey]
        simp only [String.reduceEq, false_or, or_false, or_true, true_or, reduceIte]
        split_ifs <;> exact h
      by_cases h4 : k = "q"
      · subst h4
        dsimp only [updateRowsKey]
        simp only [String.reduceEq, false_or, or_false, or_true, true_or, reduceIte]
        split_ifs <;> exact h
      by_cases h5 : k = "r"
      · subst h5
        dsimp only [updateRowsKey]
        simp only [String.reduceEq, false_or, or_false, or_true, true_or, reduceIte]
        split_ifs <;> exact h
      by_cases h6 : k = "d"
      · subst h6
        dsimp only [updateRowsKey]
        simp only [String.reduceEq, false_or, or_false, or_true, true_or, reduceIte]
        split_ifs <;> exact h
      by_cases h7 : k = "b"
      · subst h7
        dsimp only [updateRowsKey]
        simp only [String.reduceEq, false_or, or_false, or_true, true_or, reduceIte]
        split_ifs <;> exact h
      by_cases h8 : k = "/"
      · subst h8
        dsimp only [updateRowsKey]
        simp only [String.reduceEq, false_or, or_false, or_true, true_or, reduceIte]
        split_ifs <;> exact h
      by_cases h9 : k = "n"
      · subst h9
        dsimp only [updateRowsKey]
        simp only [String.reduceEq, false_or, or_false, or_true, true_or, reduceIte]
        split_ifs <;> exact h
      by_cases h10 : k = "p"
      · subst h10
        dsimp only [updateRowsKey]
        simp only [String.reduceEq, false_or, or_false, or_true, true_or, reduceIte]
        split_ifs <;> exact h
      by_cases h11 : k = "left"
      · subst h11
        dsimp only [updateRowsKey]
        simp only [String.reduceEq, false_or, or_false, or_true, true_or, reduceIte]
        split_ifs <;> (dsimp only; omega)
      by_cases h12 : k = "h"
      · subst h12
        dsimp only [updateRowsKey]
        simp only [String.reduceEq, false_or, or_false, or_true, true_or, reduceIte]
        split_ifs <;> (dsimp only; omega)
      by_cases h13 : k = "right"
      · subst h13
        dsimp only [updateRowsKey]
        simp only [String.reduceEq, false_or, or_false, or_true, true_or, reduceIte]
        split_ifs <;> (dsimp only; omega)
      by_cases h14 : k = "l"
      · subst h14
        dsimp only [updateRowsKey]
        simp only [String.reduceEq, false_or, or_false, or_true, true_or, reduceIte]
        split_ifs <;> (dsimp only; omega)
      by_cases h15 : k = "shift+left"
      · subst h15
        dsimp only [updateRowsKey]
        simp only [String.reduceEq, false_or, or_false, or_true, true_or, reduceIte]
        split_ifs <;> (dsimp only; omega)
      by_cases h16 : k = "shift+right"
      · subst h16
        dsimp only [updateRowsKey]
        simp only [String.reduceEq, false_or, or_false, or_true, true_or, reduceIte]
        split_ifs <;> (dsimp only; omega)
      dsimp only [updateRowsKey]
      simp only [h1, h2, h3, h4, h5, h6, h7, h8, h9, h10, h11, h12, h13, h14, h15, h16,
        false_or, or_false, or_self, reduceIte, if_false, if_true]
      split_ifs <;> exact h

/-- C10: in every reachable state the horizontal offset is nonnegative
(the left-scroll keys clamp at zero and selecting a table resets it to
zero), while the right-scroll keys add 4 or 16 with no upper bound; and
once the clamped offset is at least the length of every line of the
rendered text, the clipped view consists entirely of empty lines. -/
theorem c10_horiz_offset (ti : TIUpdate) :
    (∀ m, Reachable ti m → 0 ≤ m.horizOffset)
    ∧ (∀ m : Model, m.editingFilter = false → m.editingDelete = false →
        (updateRowsKey ti m "right").1.horizOffset = m.horizOffset + 4
        ∧ (updateRowsKey ti m "l").1.horizOffset = m.horizOffset + 4
        ∧ (updateRowsKey ti m "shift+right").1.horizOffset = m.horizOffset + 16
        ∧ (updateRowsKey ti m "h").1.horizOffset = max (m.horizOffset - 4) 0
        ∧ (updateRowsKey ti m "left").1.horizOffset = max (m.horizOffset - 4) 0)
    ∧ (∀ m : Model, m.tableNames ≠ [] →
        (updateTablesKey m "enter").1.horizOffset = 0)
    ∧ (∀ (s : String) (off w : Int), 0 < w → 0 ≤ off →
        (∀ l ∈ splitLines s.data, l.length ≤ off.toNat) →
        ∀ l ∈ splitLines (applyHorizontalScroll s off w).data, l = []) := by
  refine ⟨?_, ?_, ?_, ?_⟩
  · intro m h
    induction h with
    | init => decide
    | step m' msg hr ih => exact horiz_nonneg_step ti m' msg ih
  · intro m hf hd
    refine ⟨?_, ?_, ?_, ?_, ?_⟩ <;> simp [updateRowsKey, hd, hf] <;> omega
  · intro m hne
    simp [updateTablesKey, List.length_eq_zero, hne]
  · intro s off w hw hoff hlen l hl
    rw [applyHorizontalScroll_lines s off w hw] at hl
    rcases List.mem_map.mp hl with ⟨l0, hl0, rfl⟩
    have hle : l0.length ≤ (max off 0).toNat := by
      have := hlen l0 hl0
      omega
    simp [clipLine, hle]

/-- Witness for c10_horiz_offset: the initial state is reachable with
offset 0; right-scroll in a browsing state adds 4; selecting a table
resets to 0; and with every line of a concrete text no longer than the
clamped offset 10, every clipped line is empty. -/
theorem c10_horiz_offset_witness :
    0 ≤ Dhumal.initialModel.horizOffset
    ∧ (updateRowsKey tiAppend c1ScenModel "right").1.horizOffset
        = c1ScenModel.horizOffset + 4
    ∧ (updateTablesKey { Dhumal.initialModel with tableNames := ["t"] } "enter").1.horizOffset = 0
    ∧ ∀ l ∈ splitLines (applyHorizontalScroll "ab\ncd" 10 5).data, l = [] := by
  have h := c10_horiz_offset tiAppend
  refine ⟨h.1 initialModel Reachable.init, (h.2.1 c1ScenModel rfl rfl).1, ?_, ?_⟩
  · exact h.2.2.1 _ (by decide)
  · exact h.2.2.2 "ab\ncd" 10 5 (by decide) (by decide) (by decide)

/-! ### Renderer lemmas (claim C2) -/

/-- A running-maximum foldl is the max of the seed and the foldr maximum
of the mapped list. -/
theorem foldl_max_eq {α : Type} (f : α → Nat) (l : List α) (init : Nat) :
    l.foldl (fun w x => max w (f x)) init = max init ((l.map f).foldr max 0) := by
  induction l generalizing init with
  | nil => simp
  | cons x xs ih =>
    rw [List.foldl_cons, ih, List.map_cons, List.foldr_cons]
    omega

/-- Every element of a list bounds the foldr maximum of its image. -/
theorem le_foldr_max {α : Type} (f : α → Nat) (l : List α) (x : α) (h : x ∈ l) :
    f x ≤ (l.map f).foldr max 0 := by
  induction l with
  | nil => cases h
  | cons y ys ih =>
    rw [List.map_cons, List.foldr_cons]
    rcases List.mem_cons.mp h with rfl | h
    · exact le_max_left _ _
    · exact le_trans (ih h) (le_max_right _ _)

/-- The header label never exceeds its column width. -/
theorem le_colWidth_header (columns : List String) (rows : List (List String)) (i : Nat) :
    (columns.getD i "").length ≤ colWidth columns rows i := by
  rw [colWidth, foldl_max_eq]
  exact le_max_left _ _

/-- No cell of any row exceeds its column width. -/
theorem le_colWidth_cell (columns : List String) (rows : List (List String)) (i : Nat)
    (row : List String) (h : row ∈ rows) :
    (cellAt row i).length ≤ colWidth columns rows i := by
  rw [colWidth, foldl_max_eq]
  exact le_trans (le_foldr_max (fun r => (cellAt r i).length) rows row h) (le_max_right _ _)

/-- String append acts as list append on the character data. -/
theorem string_data_append (a b : String) : (a ++ b).data = a.data ++ b.data :=
  rfl

/-- String length is the length of the character data. -/
theorem string_length_data (s : String) : s.length = s.data.length :=
  rfl

/-- The data of a string built from a character list. -/
theorem string_data_mk (l : List Char) : (String.mk l).data = l :=
  rfl

/-- Padding a string that fits produces exactly the target width. -/
theorem padRight_length (s : String) (w : Nat) (h : s.length ≤ w) :
    (padRight s w).length = w := by
  simp only [padRight, string_length_data, string_data_append, string_data_mk,
    List.length_append, List.length_replicate]
  simp only [string_length_data] at h
  omega

/-- Length of the border-line fold. -/
theorem borderLine_length_aux (l : List Nat) (init : String) :
    (l.foldl (fun acc w => acc ++ String.mk (List.replicate (w + 2) '-') ++ "+") init).length
      = init.length + (l.map (fun w => w + 3)).sum := by
  induction l generalizing init with
  | nil => simp
  | cons x xs ih =>
    rw [List.foldl_cons, ih, List.map_cons, List.sum_cons]
    simp only [string_length_data, string_data_append, string_data_mk, List.length_append,
      List.length_replicate]
    have hp : ("+" : String).data.length = 1 := rfl
    rw [hp]
    omega

/-- Length of a border line. -/
theorem borderLine_length (ws : List Nat) :
    (borderLine ws).length = 1 + (ws.map (fun w => w + 3)).sum := by
  rw [borderLine, borderLine_length_aux]
  have hp : ("+" : String).length = 1 := rfl
  rw [hp]

/-- Length of the content-line fold. -/
theorem contentLine_length_aux (cells : List String) (ws : List Nat) (l : List Nat)
    (init : String) :
    (l.foldl (fun acc i => acc ++ " " ++ padRight (cellAt cells i) (ws.getD i 0) ++ " |")
        init).length
      = init.length
        + (l.map (fun i => (padRight (cellAt cells i) (ws.getD i 0)).length + 3)).sum := by
  induction l generalizing init with
  | nil => simp
  | cons x xs ih =>
    rw [List.foldl_cons, ih, List.map_cons, List.sum_cons]
    simp only [string_length_data, string_data_append, List.length_append]
    have h1 : (" " : String).data.length = 1 := rfl
    have h2 : (" |" : String).data.length = 2 := rfl
    rw [h1, h2]
    omega

/-- Reading each position of a list back with getD over its index range
reproduces the list. -/
theorem range_map_getD {α : Type} (l : List α) (d : α) :
    (List.range l.length).map (fun i => l.getD i d) = l := by
  apply List.ext_getElem
  · simp
  · intro i h1 h2
    rw [List.getElem_map, List.getElem_range, List.getD_eq_getElem _ _ h2]

/-- Length of a content line whose cells all fit their columns. -/
theorem contentLine_length (ws : List Nat) (cells : List String)
    (h : ∀ i, i < ws.length → (cellAt cells i).length ≤ ws.getD i 0) :
    (contentLine ws cells).length = 1 + (ws.map (fun w => w + 3)).sum := by
  rw [contentLine, contentLine_length_aux]
  have hmap : (List.range ws.length).map
        (fun i => (padRight (cellAt cells i) (ws.getD i 0)).length + 3)
      = (List.range ws.length).map (fun i => ws.getD i 0 + 3) := by
    apply List.map_congr_left
    intro i hi
    rw [padRight_length _ _ (h i (List.mem_range.mp hi))]
  rw [hmap]
  have hws : (List.range ws.length).map (fun i => ws.getD i 0 + 3)
      = ((List.range ws.length).map (fun i => ws.getD i 0)).map (fun w => w + 3) := by
    rw [List.map_map]
    rfl
  rw [hws, range_map_getD]
  have h1 : ("|" : String).length = 1 := rfl
  rw [h1]

/-- The length of colWidths is the number of columns. -/
theorem colWidths_length (columns : List String) (rows : List (List String)) :
    (colWidths columns rows).length = columns.length := by
  simp [colWidths]

/-- Reading colWidths at a valid index gives colWidth. -/
theorem colWidths_getD (columns : List String) (rows : List (List String)) (i : Nat)
    (h : i < columns.length) :
    (colWidths columns rows).getD i 0 = colWidth columns rows i := by
  rw [colWidths, List.getD_eq_getElem _ _ (by simpa using h), List.getElem_map,
    List.getElem_range]

/-- getD of a replicated value with itself as default. -/
theorem getD_replicate_self {α : Type} (k i : Nat) (a : α) :
    (List.replicate k a).getD i a = a := by
  rcases Nat.lt_or_ge i k with h | h
  · rw [List.getD_eq_getElem _ _ (by simpa using h), List.getElem_replicate]
  · exact List.getD_eq_default _ _ (by simpa using h)

/-- Padding a row with empty cells does not change any cell read. -/
theorem cellAt_pad (row : List String) (k i : Nat) :
    cellAt (row ++ List.replicate k "") i = cellAt row i := by
  unfold cellAt
  rcases Nat.lt_or_ge i row.length with h | h
  · rw [List.getD_append _ _ _ _ h]
  · rw [List.getD_append_right _ _ _ _ h, List.getD_eq_default _ _ h, getD_replicate_self]

/-- Column widths are unchanged by padding rows with empty cells. -/
theorem colWidth_pad (columns : List String) (rows : List (List String)) (i : Nat) :
    colWidth columns
        (rows.map (fun r => r ++ List.replicate (columns.length - r.length) "")) i
      = colWidth columns rows i := by
  unfold colWidth
  rw [List.foldl_map]
  congr 1
  funext w r
  rw [cellAt_pad]

/-- Content lines are unchanged by padding the row with empty cells. -/
theorem contentLine_pad (ws : List Nat) (row : List String) (k : Nat) :
    contentLine ws (row ++ List.replicate k "") = contentLine ws row := by
  unfold contentLine
  congr 1
  funext acc i
  rw [cellAt_pad]

/-- The emitted lines are unchanged by padding every row to the header
length with empty cells. -/
theorem tableLines_pad (columns : List String) (rows : List (List String)) :
    tableLines columns
        (rows.map (fun r => r ++ List.replicate (columns.length - r.length) ""))
      = tableLines columns rows := by
  have hws : colWidths columns
        (rows.map (fun r => r ++ List.replicate (columns.length - r.length) ""))
      = colWidths columns rows := by
    unfold colWidths
    congr 1
    funext i
    exact colWidth_pad columns rows i
  have hmaps : (rows.map (fun r => r ++ List.replicate (columns.length - r.length) "")).map
        (contentLine (colWidths columns rows))
      = rows.map (contentLine (colWidths columns rows)) := by
    rw [List.map_map]
    apply List.map_congr_left
    intro r hr
    exact contentLine_pad _ r _
  simp only [tableLines]
  rw [hws, hmaps]

/-- C2: for a nonzero header, the output is the emitted lines each
followed by a newline; the width of column i is the maximum in code
points of the header label and every row's cell i; every emitted line
has the same total character length (that of a border line); and a
table with short rows renders exactly as the same table with every row
padded to the header length by empty cells.  An empty header set
renders the fixed placeholder instead. -/
theorem c2_renderer (columns : List String) (rows : List (List String)) :
    (columns ≠ [] →
      renderTable columns rows
          = String.join ((tableLines columns rows).map (fun l => l ++ "\n"))
      ∧ (∀ i, colWidth columns rows i
          = max (columns.getD i "").length
              ((rows.map fun row => (cellAt row i).length).foldr max 0))
      ∧ (∀ line ∈ tableLines columns rows,
          line.length = (borderLine (colWidths columns rows)).length)
      ∧ renderTable columns rows
          = renderTable columns
              (rows.map fun row => row ++ List.replicate (columns.length - row.length) ""))
    ∧ renderTable [] rows = "(No columns)\n" := by
  constructor
  · intro hne
    have hempty : columns.isEmpty = false := by
      simpa [List.isEmpty_iff] using hne
    refine ⟨?_, ?_, ?_, ?_⟩
    · rw [renderTable, hempty]
      rfl
    · intro i
      rw [colWidth, foldl_max_eq]
    · intro line hline
      have hbound : ∀ cells : List String,
          (∀ i, i < (colWidths columns rows).length →
            (cellAt cells i).length ≤ (colWidths columns rows).getD i 0) →
          line = contentLine (colWidths columns rows) cells →
          line.length = (borderLine (colWidths columns rows)).length := by
        intro cells hc hl
        rw [hl, contentLine_length _ _ hc, borderLine_length]
      have hcols : line = contentLine (colWidths columns rows) columns →
          line.length = (borderLine (colWidths columns rows)).length := by
        intro hl
        apply hbound columns _ hl
        intro i hi
        rw [colWidths_getD columns rows i (by simpa [colWidths_length] using hi)]
        exact le_colWidth_header columns rows i
      simp only [tableLines] at hline
      rcases List.mem_append.mp hline with hA | hS
      · rcases List.mem_cons.mp hA with rfl | hA
        · rfl
        rcases List.mem_cons.mp hA with rfl | hA
        · exact hcols rfl
        rcases List.mem_cons.mp hA with rfl | hA
        · rfl
        have hM : line ∈ rows.map (contentLine (colWidths columns rows)) := by
          simpa using hA
        rcases List.mem_map.mp hM with ⟨r, hr, heq⟩
        apply hbound r _ heq.symm
        intro i hi
        rw [colWidths_getD columns rows i (by simpa [colWidths_length] using hi)]
        exact le_colWidth_cell columns rows i r hr
      · rcases List.mem_cons.mp hS with rfl | hS
        · rfl
        exact absurd hS (List.not_mem_nil line)
    · rw [renderTable, renderTable, hempty, tableLines_pad]
  · rfl

/-- Witness for c2_renderer at the spec scenario table: header id/name
with two rows. -/
theorem c2_renderer_witness :
    ((["id", "name"] : List String) ≠ [])
    ∧ colWidth ["id", "name"] [["1", "Alice"], ["2", "Bob"]] 1
        = max ("name".length)
            (([["1", "Alice"], ["2", "Bob"]].map
                fun row => (cellAt row 1).length).foldr max 0)
    ∧ (∀ line ∈ tableLines ["id", "name"] [["1", "Alice"], ["2", "Bob"]],
        line.length
          = (borderLine (colWidths ["id", "name"] [["1", "Alice"], ["2", "Bob"]])).length)
    ∧ renderTable ["id", "name"] [["1", "Alice"], ["2", "Bob"]]
        = renderTable ["id", "name"]
            ([["1", "Alice"], ["2", "Bob"]].map
              fun row => row ++ List.replicate (2 - row.length) "") := by
  have h := (c2_renderer ["id", "name"] [["1", "Alice"], ["2", "Bob"]]).1 (by decide)
  exact ⟨by decide, h.2.1 1, h.2.2.1, h.2.2.2⟩

end Dhumal
